import Mathlib

/-!
# Verification of `static/js/calendar.js` (calendario-harmonia)

Shallow embedding of the client-side calendar logic: event records, month
grouping, category filtering, the list-view renderer, the grid-view renderer
and the data-loading state transition, together with proofs of the
documented properties.

Conventions of the embedding:
* JS objects used as ordered string-keyed maps become association lists that
  keep key insertion order (`Object.keys` enumeration order).
* Optional / possibly-absent string fields become `Option String`; the JS
  truthiness test `v ? a : b` on such a field becomes `jsTruthy`.
* `new Date("YYYY-MM-DD")` field extraction becomes `parseDate` (digits split
  on the dash); calendar arithmetic (`getDay`, days-in-month via day 0 of the
  following month) is Gregorian arithmetic on (year, month, day).
* DOM output becomes explicit data: a grid is a `List Cell`, the list view a
  `List MonthGroup`; `container.innerHTML = ''` followed by a rebuild becomes
  a function that ignores the previous container contents.
-/

namespace Calendario

/-- An event record (`evento`) as consumed by `calendar.js`:
`data` is the ISO-like date string "YYYY-MM-DD", `hora` and `local_`
(`local` in the source, renamed because `local` is a Lean keyword) are
optional display fields. -/
structure Evento where
  data : String
  titulo : String
  categoria : String
  hora : Option String
  local_ : Option String
deriving DecidableEq, Repr

/-- The string value of a possibly-absent JS string field (`undefined` reads
as the empty string for our purposes, it is only ever used behind
`jsTruthy`). -/
def jsStr (v : Option String) : String := v.getD ""

/-- JS truthiness of a possibly-absent string: absent and `""` are falsy. -/
def jsTruthy (v : Option String) : Bool :=
  match v with
  | none => false
  | some s => decide (s ≠ "")

/-- The JS idiom `v || d` on a possibly-absent string field. -/
def jsOr (v : Option String) (d : String) : String :=
  if jsTruthy v then jsStr v else d

/-- Split a character list on a separator character, like JS
`String.prototype.split` with a single-character separator. -/
def splitOnChar (c : Char) : List Char → List (List Char)
  | [] => [[]]
  | x :: xs =>
    let r := splitOnChar c xs
    if x = c then [] :: r
    else
      match r with
      | [] => [[x]]
      | g :: gs => (x :: g) :: gs

/-- Read a nonempty all-digit character list as a natural number. -/
def digitsToNat? (cs : List Char) : Option Nat :=
  match cs with
  | [] => none
  | _ =>
    cs.foldl
      (fun acc c =>
        match acc with
        | none => none
        | some n => if c.isDigit then some (n * 10 + (c.toNat - 48)) else none)
      (some 0)

/-- Field extraction of `new Date(s)` for an ISO-like "YYYY-MM-DD" string:
the (year, month, day) triple. Strings that are not of that shape give the
junk triple `(0, 0, 0)` (the source leaves unparseable dates undefined). -/
def parseDate (s : String) : Nat × Nat × Nat :=
  match (splitOnChar '-' s.toList).map digitsToNat? with
  | [some y, some m, some d] => (y, m, d)
  | _ => (0, 0, 0)

/-- The capitalized pt-BR month names, exactly the `meses` array of
`renderEventsList` and the capitalized output of
`toLocaleString('pt-BR', { month: 'long' })`. -/
def meses : List String :=
  ["Janeiro", "Fevereiro", "Março", "Abril", "Maio", "Junho",
   "Julho", "Agosto", "Setembro", "Outubro", "Novembro", "Dezembro"]

/-- Capitalized localized month name for a 1-based month number; out-of-range
months render as the JS "Invalid Date". -/
def monthName (m : Nat) : String := (meses.get? (m - 1)).getD "Invalid Date"

/-- The month name `groupEventosByMonth` derives for an event:
`new Date(evento.data)` localized to a capitalized long month name. -/
def eventoMonthName (e : Evento) : String := monthName (parseDate e.data).2.1

/-- One step of `grouped[monthName].push(evento)` on an insertion-ordered
association list: append to the first group with this key, or append a new
singleton group at the end. -/
def insertGrouped (key : String) (e : Evento) :
    List (String × List Evento) → List (String × List Evento)
  | [] => [(key, [e])]
  | (k, es) :: rest =>
    if k = key then (k, es ++ [e]) :: rest
    else (k, es) :: insertGrouped key e rest

/-- Embeds `groupEventosByMonth(eventos)`: fold the events left to right, pushing
each onto its month-name group of an initially empty object. -/
def groupEventosByMonth (eventos : List Evento) : List (String × List Evento) :=
  eventos.foldl (fun acc e => insertGrouped (eventoMonthName e) e acc) []

/-- Embeds `getFilteredEventos()`: pass everything through for the distinguished
filter `'Todas'`, otherwise keep the events whose `categoria` equals the
filter exactly. -/
def getFilteredEventos (currentFilter : String) (allEventos : List Evento) :
    List Evento :=
  if currentFilter = "Todas" then allEventos
  else allEventos.filter (fun e => e.categoria = currentFilter)

/-- The decimal digit character for `n < 10`. -/
def digitChar (n : Nat) : Char := Char.ofNat (48 + n)

/-- Decimal digits of `n`, most significant first; `fuel`-bounded structural
recursion (any `fuel > n` suffices). -/
def natDigits : Nat → Nat → List Char
  | 0, _ => []
  | fuel + 1, n =>
    if n < 10 then [digitChar n]
    else natDigits fuel (n / 10) ++ [digitChar (n % 10)]

/-- JS `String(n)` for a natural number: its decimal representation. -/
def natToStr (n : Nat) : String := ⟨natDigits (n + 1) n⟩

/-- JS `String(n).padStart(2, '0')`. -/
def pad2 (n : Nat) : String :=
  if n < 10 then "0" ++ natToStr n else natToStr n

/-- The zero-padded day key built in `renderCalendars`:
`year + '-' + String(month).padStart(2,'0') + '-' + String(day).padStart(2,'0')`. -/
def dateStr (year month day : Nat) : String :=
  natToStr year ++ "-" ++ pad2 month ++ "-" ++ pad2 day

/-- Gregorian leap-year test. -/
def isLeap (y : Nat) : Bool :=
  (y % 4 == 0 && y % 100 != 0) || y % 400 == 0

/-- Month lengths of year `y`, January first. -/
def monthLengths (y : Nat) : List Nat :=
  [31, if isLeap y then 29 else 28, 31, 30, 31, 30, 31, 31, 30, 31, 30, 31]

/-- Embeds `new Date(year, month, 0).getDate()` for 1-based `month`: the number of
days in that month of that year (day 0 of the 0-based month `month`
normalizes to the last day of the previous 0-based month, i.e. of the 1-based
month `month`). Out-of-range months give 0. -/
def daysInMonth (y m : Nat) : Nat := ((monthLengths y).get? (m - 1)).getD 0

/-- Days in the months of year `y` strictly before 1-based month `m`. -/
def daysBeforeMonth (y m : Nat) : Nat := ((monthLengths y).take (m - 1)).sum

/-- Zero-based index of the Gregorian day (y, m, d), counting from
January 1 of year 1 (proleptic). -/
def dayNumber (y m d : Nat) : Nat :=
  365 * (y - 1) + (y - 1) / 4 - (y - 1) / 100 + (y - 1) / 400
    + daysBeforeMonth y m + (d - 1)

/-- Embeds `Date.prototype.getDay`: weekday with Sunday = 0. January 1 of year 1
(proleptic Gregorian) is a Monday. -/
def dayOfWeek (y m d : Nat) : Nat := (dayNumber y m d + 1) % 7

/-- Embeds `new Date(year, month - 1, 1).getDay()` of `renderCalendars`: the weekday
index of day 1 of the 1-based month `month`. -/
def jsFirstDay (year month : Nat) : Nat := dayOfWeek year month 1

/-- The static `categoryColors` table. -/
def categoryColors : List (String × String) :=
  [("Estadual", "#1e3a52"), ("Ritualística", "#4a7c59"),
   ("Entretenimento", "#d4a574"), ("Pública", "#4a9b8e"),
   ("Feriado", "#e74c3c"), ("Sem Atividade", "#2c3e50")]

/-- The static `categoryCssClasses` table. -/
def categoryCssClasses : List (String × String) :=
  [("Estadual", "estadual"), ("Ritualística", "ritualistica"),
   ("Entretenimento", "entretenimento"), ("Pública", "publica"),
   ("Feriado", "feriado"), ("Sem Atividade", "sematividade")]

/-- Embeds `categoryColors[categoria] || '#999'`. -/
def colorFor (categoria : String) : String :=
  (categoryColors.lookup categoria).getD "#999"

/-- Embeds `categoryCssClasses[categoria] || 'sematividade'`. -/
def cssClassFor (categoria : String) : String :=
  (categoryCssClasses.lookup categoria).getD "sematividade"

/-- The decoration `renderCalendars` applies to a day cell that has an
event: the added class list, inline background color, `data-tooltip`
payload and `title` hover label. -/
structure DayMark where
  cssClasses : List String
  backgroundColor : String
  tooltip : String
  titleAttr : String
deriving DecidableEq, Repr

/-- The day-cell decoration built from the first matching event. -/
def mkDayMark (evento : Evento) : DayMark :=
  { cssClasses := ["has-event", cssClassFor evento.categoria]
  , backgroundColor := colorFor evento.categoria
  , tooltip :=
      evento.titulo ++ "\n"
        ++ (if jsTruthy evento.hora then "⏰ " ++ jsStr evento.hora else "")
        ++ "\n"
        ++ (if jsTruthy evento.local_ then "📍 " ++ jsStr evento.local_ else "")
  , titleAttr :=
      evento.titulo ++ " - " ++ jsOr evento.hora "S/ hora"
        ++ " - " ++ jsOr evento.local_ "S/ local" }

/-- One cell of a calendar grid: a weekday header, a leading blank, or a
numbered day cell with its optional event decoration. -/
inductive Cell where
  | header (label : String)
  | emptyCell
  | day (d : Nat) (mark : Option DayMark)
deriving DecidableEq, Repr

def Cell.isHeader : Cell → Bool
  | Cell.header _ => true
  | _ => false

def Cell.isEmptyCell : Cell → Bool
  | Cell.emptyCell => true
  | _ => false

def Cell.isDay : Cell → Bool
  | Cell.day _ _ => true
  | _ => false

/-- The weekday header labels of every grid. -/
def dayHeaders : List String :=
  ["Dom", "Seg", "Ter", "Qua", "Qui", "Sex", "Sáb"]

/-- The day cell `renderCalendars` builds for day `d`: it filters the full
event list for an exact match on the zero-padded date key and decorates the
cell with the first match, if any. -/
def mkDayCell (allEventos : List Evento) (year month d : Nat) : Cell :=
  let eventosDoDay := allEventos.filter (fun e => e.data = dateStr year month d)
  Cell.day d (eventosDoDay.head?.map mkDayMark)

/-- The full cell sequence of one calendar block: 7 weekday headers, then
one blank per weekday index of day 1, then one cell per day of the month. -/
def calendarGridCells (allEventos : List Evento) (year month : Nat) : List Cell :=
  dayHeaders.map Cell.header
    ++ List.replicate (jsFirstDay year month) Cell.emptyCell
    ++ (List.range (daysInMonth year month)).map
        (fun i => mkDayCell allEventos year month (i + 1))

/-- The capitalized "Month de Year" title of a calendar block
(`toLocaleString('pt-BR', { month: 'long', year: 'numeric' })`, first letter
capitalized). -/
def calendarTitle (year month : Nat) : String :=
  monthName month ++ " de " ++ natToStr year

/-- One rendered calendar block. -/
structure CalendarBlock where
  title : String
  cells : List Cell
deriving DecidableEq, Repr

/-- Computes `eventoYM e`: the (getFullYear, getMonth + 1) pair `getMonthsWithEvents`
derives from an event's date. -/
def eventoYM (e : Evento) : Nat × Nat :=
  ((parseDate e.data).1, (parseDate e.data).2.1)

/-- JS `Set.prototype.add` on an insertion-ordered list of pairs: keep the
list if the element is present, else append it. -/
def setAdd (acc : List (Nat × Nat)) (p : Nat × Nat) : List (Nat × Nat) :=
  if p ∈ acc then acc else acc ++ [p]

/-- The comparator of `getMonthsWithEvents` as a relation: year ascending,
then month ascending. -/
def pairLe (a b : Nat × Nat) : Prop :=
  a.1 < b.1 ∨ (a.1 = b.1 ∧ a.2 ≤ b.2)

instance : DecidableRel pairLe := fun a b => by
  unfold pairLe; infer_instance

instance : IsTotal (Nat × Nat) pairLe :=
  ⟨by intro a b; unfold pairLe; omega⟩

instance : IsTrans (Nat × Nat) pairLe :=
  ⟨by intro a b c; unfold pairLe; omega⟩

/-- Embeds `getMonthsWithEvents()`: the distinct (year, month) pairs of the events
in first-occurrence order (a JS `Set` of JSON keys), then sorted ascending by
year, then month. -/
def getMonthsWithEvents (allEventos : List Evento) : List (Nat × Nat) :=
  List.insertionSort pairLe ((allEventos.map eventoYM).foldl setAdd [])

/-- Embeds `renderCalendars()`: one calendar block per (year, month) pair with
events, in `getMonthsWithEvents` order; always reads the full unfiltered
event list. -/
def renderCalendars (allEventos : List Evento) : List CalendarBlock :=
  (getMonthsWithEvents allEventos).map
    (fun p => { title := calendarTitle p.1 p.2
              , cells := calendarGridCells allEventos p.1 p.2 })

/-- One rendered row of the list view: day-of-month badge with its color,
title, category label, and the time/location texts with their fallbacks.
`elementClasses` records the (fixed) CSS class names the row's elements
carry. -/
structure EventRow where
  day : Nat
  dateBoxColor : String
  titulo : String
  categoria : String
  horaDisplay : String
  localDisplay : String
  elementClasses : List String
deriving DecidableEq, Repr

/-- The row `renderEventsList` builds for one event. -/
def renderRow (evento : Evento) : EventRow :=
  { day := (parseDate evento.data).2.2
  , dateBoxColor := colorFor evento.categoria
  , titulo := evento.titulo
  , categoria := evento.categoria
  , horaDisplay := jsOr evento.hora "Horário não definido"
  , localDisplay := jsOr evento.local_ "Local não definido"
  , elementClasses :=
      ["event-item", "event-date-box", "event-details", "event-title",
       "event-category", "event-time", "event-location"] }

/-- One rendered month group of the list view. -/
structure MonthGroup where
  title : String
  rows : List EventRow
deriving DecidableEq, Repr

/-- JS `meses.indexOf(k)`: position in the canonical month list, -1 when
absent. -/
def jsIndexOfMes (k : String) : Int :=
  match meses.indexOf? k with
  | some i => (i : Int)
  | none => -1

/-- The month-key comparator of `renderEventsList` as a relation. -/
def mesLe (a b : String) : Prop := jsIndexOfMes a ≤ jsIndexOfMes b

instance : DecidableRel mesLe := fun a b => by
  unfold mesLe; infer_instance

instance : IsTotal String mesLe :=
  ⟨by intro a b; exact Int.le_total (jsIndexOfMes a) (jsIndexOfMes b)⟩

instance : IsTrans String mesLe :=
  ⟨by intro a b c; exact Int.le_trans⟩

/-- Embeds `renderEventsList()`: filter, group by month name, sort the month keys
by canonical month position, and emit one group of rows per key. -/
def renderEventsList (currentFilter : String) (allEventos : List Evento) :
    List MonthGroup :=
  let grouped := groupEventosByMonth (getFilteredEventos currentFilter allEventos)
  let monthKeys := List.insertionSort mesLe (grouped.map Prod.fst)
  monthKeys.map
    (fun k => { title := k
              , rows := ((grouped.lookup k).getD []).map renderRow })

/-- The optional `config` object of the `/api/data` response. -/
structure SiteConfig where
  local_ : Option String
  contact : Option String
  logo : Option String
deriving DecidableEq, Repr

/-- The parsed `/api/data` response body. -/
structure ApiData where
  eventos : Option (List Evento)
  config : Option SiteConfig
deriving DecidableEq, Repr

/-- The page state `loadData` touches: the module-level `allEventos` and
`currentFilter`, the contact/logo elements, both render targets, and the
console error log. -/
structure AppState where
  allEventos : List Evento
  currentFilter : String
  localInfo : String
  contactInfo : String
  logoSrc : String
  eventosContainer : List MonthGroup
  calendarsContainer : List CalendarBlock
  consoleErrors : List String
deriving DecidableEq, Repr

/-- Embeds `loadData()` as a state transition. The argument `fetchResult` stands
for `await fetch(...)` then `await response.json()`: `Except.error` is a
network failure or a non-JSON body, and in that case control jumps to the
`catch` block before any assignment runs, so only `console.error` fires.
On success the store is replaced (`data.eventos || []`), the config fields
fall back per field, and both renderers rebuild their targets. -/
def loadData (st : AppState) (fetchResult : Except String ApiData) : AppState :=
  match fetchResult with
  | Except.error err =>
    { st with consoleErrors := st.consoleErrors ++ ["Erro ao carregar dados: " ++ err] }
  | Except.ok data =>
    let st1 := { st with allEventos := data.eventos.getD [] }
    let st2 :=
      match data.config with
      | none => st1
      | some cfg =>
        { st1 with
          localInfo := jsOr cfg.local_ "Rua José Pereira Liberato, 1178"
          contactInfo := jsOr cfg.contact "(47) 99286-0936 (Arthur Ayad)"
          logoSrc := if jsTruthy cfg.logo then jsStr cfg.logo else st1.logoSrc }
    { st2 with
      calendarsContainer := renderCalendars st2.allEventos
      eventosContainer := renderEventsList st2.currentFilter st2.allEventos }

/-- Embeds `renderEventsList` as it acts on its DOM container: the previous
contents are discarded (`container.innerHTML = ''`) and the output is
rebuilt from the store and filter alone. -/
def renderEventsListInto (prevContainer : List MonthGroup)
    (currentFilter : String) (allEventos : List Evento) : List MonthGroup :=
  let _ := prevContainer
  renderEventsList currentFilter allEventos

/-- Embeds `renderCalendars` as it acts on its DOM container. -/
def renderCalendarsInto (prevContainer : List CalendarBlock)
    (allEventos : List Evento) : List CalendarBlock :=
  let _ := prevContainer
  renderCalendars allEventos

/-! ## Lemmas about the month grouping -/

theorem lookup_insertGrouped_self (key : String) (e : Evento)
    (g : List (String × List Evento)) :
    List.lookup key (insertGrouped key e g)
      = some ((List.lookup key g).getD [] ++ [e]) := by
  induction g with
  | nil => simp [insertGrouped, List.lookup]
  | cons q rest ih =>
    obtain ⟨k, es⟩ := q
    by_cases h : k = key
    · subst h
      simp [insertGrouped, List.lookup]
    · have hb : (key == k) = false := beq_eq_false_iff_ne.mpr (Ne.symm h)
      simp [insertGrouped, h, List.lookup, hb, ih]

theorem lookup_insertGrouped_ne (key k' : String) (e : Evento)
    (g : List (String × List Evento)) (h : k' ≠ key) :
    List.lookup k' (insertGrouped key e g) = List.lookup k' g := by
  have hb : (k' == key) = false := beq_eq_false_iff_ne.mpr h
  induction g with
  | nil => simp [insertGrouped, List.lookup, hb]
  | cons q rest ih =>
    obtain ⟨k, es⟩ := q
    by_cases hk : k = key
    · subst hk
      simp [insertGrouped, List.lookup, hb]
    · simp [insertGrouped, hk, List.lookup, ih]

theorem keys_insertGrouped (key : String) (e : Evento)
    (g : List (String × List Evento)) :
    (insertGrouped key e g).map Prod.fst
      = if key ∈ g.map Prod.fst then g.map Prod.fst
        else g.map Prod.fst ++ [key] := by
  induction g with
  | nil => simp [insertGrouped]
  | cons q rest ih =>
    obtain ⟨k, es⟩ := q
    by_cases h : k = key
    · subst h
      simp [insertGrouped]
    · simp only [insertGrouped, if_neg h, List.map_cons, ih]
      by_cases hmem : key ∈ rest.map Prod.fst
      · simp [hmem, Ne.symm h]
      · simp [hmem, Ne.symm h]

theorem mem_keys_insertGrouped (key k' : String) (e : Evento)
    (g : List (String × List Evento)) :
    k' ∈ (insertGrouped key e g).map Prod.fst
      ↔ (k' ∈ g.map Prod.fst ∨ k' = key) := by
  rw [keys_insertGrouped]
  by_cases hmem : key ∈ g.map Prod.fst
  · simp only [if_pos hmem]
    constructor
    · exact fun h => Or.inl h
    · rintro (h | rfl)
      · exact h
      · exact hmem
  · simp [if_neg hmem, List.mem_append]

theorem nodup_keys_insertGrouped (key : String) (e : Evento)
    (g : List (String × List Evento))
    (hnd : (g.map Prod.fst).Nodup) :
    ((insertGrouped key e g).map Prod.fst).Nodup := by
  rw [keys_insertGrouped]
  by_cases hmem : key ∈ g.map Prod.fst
  · simpa [if_pos hmem] using hnd
  · simp [if_neg hmem, List.nodup_append, hnd, hmem]

theorem join_insertGrouped (key : String) (e : Evento)
    (g : List (String × List Evento)) :
    ((insertGrouped key e g).map Prod.snd).flatten.Perm
      (((g.map Prod.snd).flatten) ++ [e]) := by
  induction g with
  | nil => simp [insertGrouped]
  | cons q rest ih =>
    obtain ⟨k, es⟩ := q
    by_cases h : k = key
    · subst h
      simp only [insertGrouped, eq_self_iff_true, if_true, List.map_cons,
        List.flatten_cons]
      rw [List.append_assoc es [e] (List.map Prod.snd rest).flatten,
        List.append_assoc es (List.map Prod.snd rest).flatten [e]]
      exact List.Perm.append_left es List.perm_append_comm
    · simp only [insertGrouped, if_neg h, List.map_cons, List.flatten_cons]
      rw [List.append_assoc es (List.map Prod.snd rest).flatten [e]]
      exact List.Perm.append_left es ih

/-- The loop body of `groupEventosByMonth`. -/
def groupStep (acc : List (String × List Evento)) (e : Evento) :
    List (String × List Evento) :=
  insertGrouped (eventoMonthName e) e acc

theorem groupEventosByMonth_eq_foldl (l : List Evento) :
    groupEventosByMonth l = l.foldl groupStep [] := rfl

theorem foldl_group_lookup_getD (l : List Evento) :
    ∀ (acc : List (String × List Evento)) (k : String),
      (List.lookup k (l.foldl groupStep acc)).getD []
        = (List.lookup k acc).getD []
            ++ l.filter (fun e => eventoMonthName e = k) := by
  induction l with
  | nil => intro acc k; simp
  | cons e rest ih =>
    intro acc k
    rw [List.foldl_cons, ih, List.filter_cons]
    by_cases h : eventoMonthName e = k
    · subst h
      rw [groupStep, lookup_insertGrouped_self]
      simp
    · rw [groupStep, lookup_insertGrouped_ne _ _ _ _ (Ne.symm h)]
      simp [h]

theorem foldl_group_mem_keys (l : List Evento) :
    ∀ (acc : List (String × List Evento)) (k : String),
      k ∈ (l.foldl groupStep acc).map Prod.fst
        ↔ (k ∈ acc.map Prod.fst ∨ ∃ e ∈ l, eventoMonthName e = k) := by
  induction l with
  | nil => intro acc k; simp
  | cons e rest ih =>
    intro acc k
    rw [List.foldl_cons, ih, groupStep, mem_keys_insertGrouped]
    constructor
    · rintro (⟨h | h⟩ | ⟨e', he', hk⟩)
      · exact Or.inl h
      · exact Or.inr ⟨e, List.mem_cons_self e rest, h.symm⟩
      · exact Or.inr ⟨e', List.mem_cons_of_mem e he', hk⟩
    · rintro (h | ⟨e', he', hk⟩)
      · exact Or.inl (Or.inl h)
      · rcases List.mem_cons.mp he' with rfl | hmem
        · exact Or.inl (Or.inr hk.symm)
        · exact Or.inr ⟨e', hmem, hk⟩

theorem foldl_group_nodup_keys (l : List Evento) :
    ∀ acc : List (String × List Evento),
      (acc.map Prod.fst).Nodup → ((l.foldl groupStep acc).map Prod.fst).Nodup := by
  induction l with
  | nil => intro acc h; simpa using h
  | cons e rest ih =>
    intro acc h
    rw [List.foldl_cons]
    exact ih _ (nodup_keys_insertGrouped _ _ _ h)

theorem foldl_group_flatten_perm (l : List Evento) :
    ∀ acc : List (String × List Evento),
      ((l.foldl groupStep acc).map Prod.snd).flatten.Perm
        ((acc.map Prod.snd).flatten ++ l) := by
  induction l with
  | nil => intro acc; simp
  | cons e rest ih =>
    intro acc
    rw [List.foldl_cons]
    refine (ih (groupStep acc e)).trans ?_
    have h1 := join_insertGrouped (eventoMonthName e) e acc
    refine (h1.append_right rest).trans ?_
    rw [List.append_assoc]
    exact List.Perm.refl _

/-- In an association list with distinct keys, membership determines the
lookup. -/
theorem lookup_of_mem_of_nodup_keys (g : List (String × List Evento))
    (hnd : (g.map Prod.fst).Nodup) (p : String × List Evento) (hp : p ∈ g) :
    List.lookup p.1 g = some p.2 := by
  induction g with
  | nil => cases hp
  | cons q rest ih =>
    rcases List.mem_cons.mp hp with rfl | hmem
    · simp [List.lookup]
    · have hq : q.1 ≠ p.1 := by
        intro hEq
        have hm : p.1 ∈ rest.map Prod.fst := List.mem_map_of_mem Prod.fst hmem
        rw [List.map_cons, List.nodup_cons] at hnd
        exact hnd.1 (hEq ▸ hm)
      have hb : (p.1 == q.1) = false := beq_eq_false_iff_ne.mpr (Ne.symm hq)
      obtain ⟨k, es⟩ := q
      simp only [List.lookup, hb]
      rw [List.map_cons, List.nodup_cons] at hnd
      exact ih hnd.2 hmem

theorem groupEventosByMonth_lookup (l : List Evento) (k : String) :
    (List.lookup k (groupEventosByMonth l)).getD []
      = l.filter (fun e => eventoMonthName e = k) := by
  rw [groupEventosByMonth_eq_foldl, foldl_group_lookup_getD]
  simp

theorem groupEventosByMonth_nodup_keys (l : List Evento) :
    ((groupEventosByMonth l).map Prod.fst).Nodup := by
  rw [groupEventosByMonth_eq_foldl]
  exact foldl_group_nodup_keys l [] (by simp)

theorem groupEventosByMonth_mem_keys (l : List Evento) (k : String) :
    k ∈ (groupEventosByMonth l).map Prod.fst
      ↔ ∃ e ∈ l, eventoMonthName e = k := by
  rw [groupEventosByMonth_eq_foldl, foldl_group_mem_keys]
  simp

theorem groupEventosByMonth_flatten_perm (l : List Evento) :
    ((groupEventosByMonth l).map Prod.snd).flatten.Perm l := by
  rw [groupEventosByMonth_eq_foldl]
  simpa using foldl_group_flatten_perm l []

theorem groupEventosByMonth_snd_eq_filter (l : List Evento)
    (p : String × List Evento) (hp : p ∈ groupEventosByMonth l) :
    p.2 = l.filter (fun e => eventoMonthName e = p.1) := by
  have h := lookup_of_mem_of_nodup_keys _ (groupEventosByMonth_nodup_keys l) p hp
  have h2 := groupEventosByMonth_lookup l p.1
  rw [h] at h2
  simpa using h2

/-! ## Demo data used by the witnesses -/

def ev1 : Evento := ⟨"2026-03-15", "Festa", "Feriado", some "19:00", none⟩

def ev2 : Evento := ⟨"2026-03-15", "Sessão", "Estadual", none, some "Sede"⟩

def ev3 : Evento := ⟨"2025-12-01", "Encontro", "Pública", none, none⟩

def ev4 : Evento := ⟨"2026-03-02", "Palestra", "Desconhecida", none, none⟩

def ev5 : Evento := ⟨"2025-03-10", "Aniversário", "Entretenimento", none, none⟩

def demoEventos : List Evento := [ev1, ev2, ev3, ev4]

/-! ## C1: `groupEventosByMonth` partitions its input -/

/-- Claim C1: `groupEventosByMonth` partitions its input exactly: the
concatenation of all groups is a permutation (multiset equality) of the
input; each group is precisely the input filtered to its month name, so
relative order within a group is the input order; no group is empty, so
months with zero events never appear as keys; the keys are pairwise
distinct; and every input event lies in exactly one group. -/
theorem C1_groupEventosByMonth_partitions (l : List Evento) :
    ((groupEventosByMonth l).map Prod.snd).flatten.Perm l
    ∧ (∀ p ∈ groupEventosByMonth l,
        p.2 = l.filter (fun e => eventoMonthName e = p.1))
    ∧ (∀ p ∈ groupEventosByMonth l, p.2 ≠ [])
    ∧ ((groupEventosByMonth l).map Prod.fst).Nodup
    ∧ (∀ e ∈ l, (groupEventosByMonth l).countP (fun p => e ∈ p.2) = 1) := by
  refine ⟨groupEventosByMonth_flatten_perm l,
    groupEventosByMonth_snd_eq_filter l, ?_, groupEventosByMonth_nodup_keys l, ?_⟩
  · intro p hp hnil
    have hkey : p.1 ∈ (groupEventosByMonth l).map Prod.fst :=
      List.mem_map_of_mem Prod.fst hp
    obtain ⟨e, he, hk⟩ := (groupEventosByMonth_mem_keys l p.1).mp hkey
    have hmem : e ∈ p.2 := by
      rw [groupEventosByMonth_snd_eq_filter l p hp]
      simp [List.mem_filter, he, hk]
    rw [hnil] at hmem
    cases hmem
  · intro e he
    have hcongr : ∀ p ∈ groupEventosByMonth l,
        (decide (e ∈ p.2) = true ↔ (p.1 == eventoMonthName e) = true) := by
      intro p hp
      rw [groupEventosByMonth_snd_eq_filter l p hp]
      constructor
      · intro hd
        have hm := of_decide_eq_true hd
        have hname : eventoMonthName e = p.1 :=
          of_decide_eq_true (List.mem_filter.mp hm).2
        exact beq_iff_eq.mpr hname.symm
      · intro hb
        have hname : p.1 = eventoMonthName e := beq_iff_eq.mp hb
        exact decide_eq_true
          (List.mem_filter.mpr ⟨he, decide_eq_true hname.symm⟩)
    rw [List.countP_congr hcongr]
    have hcount : ((groupEventosByMonth l).map Prod.fst).count (eventoMonthName e) = 1 := by
      apply List.count_eq_one_of_mem (groupEventosByMonth_nodup_keys l)
      exact (groupEventosByMonth_mem_keys l _).mpr ⟨e, he, rfl⟩
    rw [List.count_eq_countP] at hcount
    rw [← hcount, List.countP_map]
    rfl

/-- Witness for C1 at a concrete event list: the two same-date events and
the single-event months each land in exactly one group. -/
theorem C1_witness :
    (groupEventosByMonth demoEventos).countP (fun p => ev1 ∈ p.2) = 1 :=
  (C1_groupEventosByMonth_partitions demoEventos).2.2.2.2 ev1 (by decide)

/-! ## C2: `getFilteredEventos` -/

/-- Claim C2: with the distinguished filter `'Todas'`, `getFilteredEventos`
returns the event list unchanged; with any other filter it returns an
order-preserving sublist of the input consisting of exactly the events
whose `categoria` equals the filter (case-sensitive string equality), with
multiplicities preserved. -/
theorem C2_getFilteredEventos_spec (f : String) (l : List Evento) :
    (f = "Todas" → getFilteredEventos f l = l)
    ∧ (f ≠ "Todas" →
        (getFilteredEventos f l).Sublist l
        ∧ (∀ e ∈ getFilteredEventos f l, e.categoria = f)
        ∧ (∀ e, List.count e (getFilteredEventos f l)
              = if e.categoria = f then List.count e l else 0)) := by
  constructor
  · intro h
    simp [getFilteredEventos, h]
  · intro h
    refine ⟨?_, ?_, ?_⟩
    · rw [getFilteredEventos, if_neg h]
      exact List.filter_sublist l
    · intro e hmem
      rw [getFilteredEventos, if_neg h] at hmem
      exact of_decide_eq_true (List.mem_filter.mp hmem).2
    · intro e
      rw [getFilteredEventos, if_neg h]
      by_cases hc : e.categoria = f
      · rw [if_pos hc]
        exact @List.count_filter Evento _ _
          (fun x => decide (x.categoria = f)) e l (decide_eq_true hc)
      · rw [if_neg hc]
        refine List.count_eq_zero.mpr ?_
        intro hmem
        exact hc (of_decide_eq_true (List.mem_filter.mp hmem).2)

/-- Witness for C2: filtering the demo list by `"Feriado"` (which differs
from `'Todas'`) keeps exactly the `"Feriado"` events. -/
theorem C2_witness :
    ∀ e ∈ getFilteredEventos "Feriado" demoEventos, e.categoria = "Feriado" :=
  ((C2_getFilteredEventos_spec "Feriado" demoEventos).2 (by decide)).2.1

/-! ## C3 and C10: calendar grid structure -/

theorem countP_day_calendarGridCells (l : List Evento) (y m : Nat) :
    (calendarGridCells l y m).countP Cell.isDay = daysInMonth y m := by
  rw [calendarGridCells, List.countP_append, List.countP_append]
  have h1 : (dayHeaders.map Cell.header).countP Cell.isDay = 0 := by
    refine List.countP_eq_zero.mpr ?_
    intro c hc
    obtain ⟨s, _, rfl⟩ := List.mem_map.mp hc
    simp [Cell.isDay]
  have h2 : (List.replicate (jsFirstDay y m) Cell.emptyCell).countP Cell.isDay = 0 := by
    refine List.countP_eq_zero.mpr ?_
    intro c hc
    rw [List.eq_of_mem_replicate hc]
    simp [Cell.isDay]
  have h3 : ((List.range (daysInMonth y m)).map
      (fun i => mkDayCell l y m (i + 1))).countP Cell.isDay
        = daysInMonth y m := by
    rw [List.countP_map]
    have : ∀ i ∈ List.range (daysInMonth y m),
        (Cell.isDay ∘ fun i => mkDayCell l y m (i + 1)) i = true := by
      intro i _
      rfl
    rw [List.countP_eq_length.mpr this, List.length_range]
  rw [h1, h2, h3]
  omega

theorem countP_empty_calendarGridCells (l : List Evento) (y m : Nat) :
    (calendarGridCells l y m).countP Cell.isEmptyCell = jsFirstDay y m := by
  rw [calendarGridCells, List.countP_append, List.countP_append]
  have h1 : (dayHeaders.map Cell.header).countP Cell.isEmptyCell = 0 := by
    refine List.countP_eq_zero.mpr ?_
    intro c hc
    obtain ⟨s, _, rfl⟩ := List.mem_map.mp hc
    simp [Cell.isEmptyCell]
  have h2 : (List.replicate (jsFirstDay y m) Cell.emptyCell).countP
      Cell.isEmptyCell = jsFirstDay y m := by
    have : ∀ c ∈ List.replicate (jsFirstDay y m) Cell.emptyCell,
        Cell.isEmptyCell c = true := by
      intro c hc
      rw [List.eq_of_mem_replicate hc]
      rfl
    rw [List.countP_eq_length.mpr this, List.length_replicate]
  have h3 : ((List.range (daysInMonth y m)).map
      (fun i => mkDayCell l y m (i + 1))).countP Cell.isEmptyCell = 0 := by
    rw [List.countP_map]
    refine List.countP_eq_zero.mpr ?_
    intro i _
    simp [Function.comp, mkDayCell, Cell.isEmptyCell]
  rw [h1, h2, h3]
  omega

/-- Claim C3: in every calendar block the number of day cells is the
days-in-month value (`new Date(year, month, 0).getDate()`) and the number of
blank cells is the weekday index (Sunday = 0) of day 1; concretely,
February 2026 yields 28 day cells, February 2024 yields 29, and March 2026
(whose day 1 is a Sunday) yields 0 leading blanks. -/
theorem C3_grid_counts (l : List Evento) (y m : Nat) :
    (calendarGridCells l y m).countP Cell.isDay = daysInMonth y m
    ∧ (calendarGridCells l y m).countP Cell.isEmptyCell = jsFirstDay y m
    ∧ (calendarGridCells l 2026 2).countP Cell.isDay = 28
    ∧ (calendarGridCells l 2024 2).countP Cell.isDay = 29
    ∧ (calendarGridCells l 2026 3).countP Cell.isEmptyCell = 0 := by
  refine ⟨countP_day_calendarGridCells l y m,
    countP_empty_calendarGridCells l y m, ?_, ?_, ?_⟩
  · rw [countP_day_calendarGridCells l 2026 2]
    decide
  · rw [countP_day_calendarGridCells l 2024 2]
    decide
  · rw [countP_empty_calendarGridCells l 2026 3]
    decide

/-- Witness for C3 at the empty store: the February 2026 block has exactly
28 day cells. -/
theorem C3_witness : (calendarGridCells [] 2026 2).countP Cell.isDay = 28 :=
  (C3_grid_counts [] 2026 2).2.2.1

/-- Claim C10: a calendar block is exactly 7 weekday headers, then the leading
blanks, then one cell per day, and nothing else; its total cell count is
`7 + weekday-of-day-1 + days-in-month`, which need not be a multiple of 7
(March 2026 gives 38 cells). -/
theorem C10_grid_block_structure (l : List Evento) (y m : Nat) :
    calendarGridCells l y m
        = dayHeaders.map Cell.header
          ++ List.replicate (jsFirstDay y m) Cell.emptyCell
          ++ (List.range (daysInMonth y m)).map (fun i => mkDayCell l y m (i + 1))
    ∧ (dayHeaders.map Cell.header).length = 7
    ∧ (calendarGridCells l y m).length = 7 + jsFirstDay y m + daysInMonth y m
    ∧ ¬ (7 ∣ (calendarGridCells l 2026 3).length) := by
  have hlen : ∀ (y' m' : Nat),
      (calendarGridCells l y' m').length = 7 + jsFirstDay y' m' + daysInMonth y' m' := by
    intro y' m'
    rw [calendarGridCells]
    simp [dayHeaders]
    omega
  refine ⟨rfl, by simp [dayHeaders], hlen y m, ?_⟩
  rw [hlen 2026 3]
  decide

/-- Witness for C10: the March 2026 block of the empty store has 38 cells,
not a multiple of 7. -/
theorem C10_witness : ¬ (7 ∣ (calendarGridCells [] 2026 3).length) :=
  (C10_grid_block_structure [] 2026 3).2.2.2

/-! ## Lemmas about `renderEventsList` -/

theorem renderEventsList_eq (f : String) (l : List Evento) :
    renderEventsList f l
      = (List.insertionSort mesLe
          ((groupEventosByMonth (getFilteredEventos f l)).map Prod.fst)).map
          (fun k =>
            { title := k
            , rows := ((List.lookup k
                (groupEventosByMonth (getFilteredEventos f l))).getD []).map
                  renderRow }) := rfl

theorem renderEventsList_titles (f : String) (l : List Evento) :
    (renderEventsList f l).map MonthGroup.title
      = List.insertionSort mesLe
          ((groupEventosByMonth (getFilteredEventos f l)).map Prod.fst) := by
  rw [renderEventsList_eq, List.map_map]
  exact List.map_id _

theorem renderEventsList_group_rows (f : String) (l : List Evento)
    (g : MonthGroup) (hg : g ∈ renderEventsList f l) :
    g.rows = ((getFilteredEventos f l).filter
        (fun x => eventoMonthName x = g.title)).map renderRow := by
  rw [renderEventsList_eq] at hg
  obtain ⟨k, _, rfl⟩ := List.mem_map.mp hg
  simp only
  rw [groupEventosByMonth_lookup]

/-- The grid decorates a day cell from the first event whose date string
matches the cell's key, regardless of later same-day events. -/
theorem mkDayCell_first_match (l1 l2 : List Evento) (e : Evento)
    (y m d : Nat)
    (hpre : ∀ x ∈ l1, x.data ≠ dateStr y m d)
    (he : e.data = dateStr y m d) :
    mkDayCell (l1 ++ e :: l2) y m d = Cell.day d (some (mkDayMark e)) := by
  rw [mkDayCell]
  have hnil : l1.filter (fun x => x.data = dateStr y m d) = [] :=
    List.filter_eq_nil_iff.mpr
      (fun a ha => by simpa using hpre a ha)
  rw [List.filter_append, hnil, List.nil_append, List.filter_cons,
    if_pos (by simpa using he)]
  rfl

theorem renderEventsList_has_title (f : String) (l : List Evento)
    (e : Evento) (he : e ∈ getFilteredEventos f l) :
    ∃ g ∈ renderEventsList f l, g.title = eventoMonthName e := by
  have hk : eventoMonthName e
      ∈ (groupEventosByMonth (getFilteredEventos f l)).map Prod.fst :=
    (groupEventosByMonth_mem_keys _ _).mpr ⟨e, he, rfl⟩
  have hk' : eventoMonthName e
      ∈ List.insertionSort mesLe
          ((groupEventosByMonth (getFilteredEventos f l)).map Prod.fst) :=
    (List.perm_insertionSort mesLe _).mem_iff.mpr hk
  rw [renderEventsList_eq]
  exact ⟨_, List.mem_map_of_mem _ hk', rfl⟩

/-! ## C4: same-day events — first wins in the grid, all listed in the list -/

/-- Claim C4: if an event `e` is the first event of the store whose date
equals the grid key of a given day, the grid cell for that day is decorated
from `e` alone, whatever same-day events follow; the unfiltered list view,
in contrast, has a group titled with `e`'s month whose rows contain one row
per event of that month — in particular one distinct row per same-day
event. -/
theorem C4_first_same_day_event_wins (pre post : List Evento) (e : Evento)
    (y m d : Nat)
    (hpre : ∀ e' ∈ pre, e'.data ≠ dateStr y m d)
    (he : e.data = dateStr y m d) :
    mkDayCell (pre ++ e :: post) y m d = Cell.day d (some (mkDayMark e))
    ∧ ∃ g ∈ renderEventsList "Todas" (pre ++ e :: post),
        g.title = eventoMonthName e
        ∧ g.rows = ((pre ++ e :: post).filter
            (fun x => eventoMonthName x = eventoMonthName e)).map renderRow := by
  constructor
  · exact mkDayCell_first_match pre post e y m d hpre he
  · have hmem : e ∈ getFilteredEventos "Todas" (pre ++ e :: post) := by
      rw [getFilteredEventos, if_pos rfl]
      exact List.mem_append_right pre (List.mem_cons_self e post)
    obtain ⟨g, hg, ht⟩ := renderEventsList_has_title "Todas" _ e hmem
    refine ⟨g, hg, ht, ?_⟩
    have hrows := renderEventsList_group_rows "Todas" _ g hg
    rw [hrows, ht, getFilteredEventos, if_pos rfl]

/-- Witness for C4: with `ev3` (another date) first and `ev2` sharing
`ev1`'s date after it, the 2026-03-15 cell is decorated from `ev1` only. -/
theorem C4_witness :
    mkDayCell ([ev3] ++ ev1 :: [ev2]) 2026 3 15
      = Cell.day 15 (some (mkDayMark ev1)) :=
  (C4_first_same_day_event_wins [ev3] [ev2] ev1 2026 3 15
    (by decide) (by decide)).1

/-! ## C5: canonical month ordering of the list view -/

/-- Claim C5: the group titles of the list view are ordered by the canonical
January–December month sequence (position in `meses`), each title occurs
once, and a group's rows are precisely the filtered events bearing that
month name — independent of year, so equal month names from different years
merge into the single group at that month's canonical position. -/
theorem C5_list_view_canonical_month_order (f : String) (l : List Evento) :
    ((renderEventsList f l).map MonthGroup.title).Pairwise mesLe
    ∧ ((renderEventsList f l).map MonthGroup.title).Nodup
    ∧ ∀ g ∈ renderEventsList f l,
        g.rows = ((getFilteredEventos f l).filter
          (fun x => eventoMonthName x = g.title)).map renderRow := by
  refine ⟨?_, ?_, renderEventsList_group_rows f l⟩
  · rw [renderEventsList_titles]
    exact List.sorted_insertionSort mesLe _
  · rw [renderEventsList_titles]
    exact (List.perm_insertionSort mesLe _).nodup_iff.mpr
      (groupEventosByMonth_nodup_keys _)

/-- Witness for C5: with events from March 2026, December 2025 and March
2025, the single "Março" group merges both years' March events. -/
theorem C5_witness :
    (⟨"Março", [renderRow ev1, renderRow ev5]⟩ : MonthGroup).rows
      = ((getFilteredEventos "Todas" [ev1, ev3, ev5]).filter
          (fun x => eventoMonthName x
            = (⟨"Março", [renderRow ev1, renderRow ev5]⟩ : MonthGroup).title)).map
          renderRow :=
  (C5_list_view_canonical_month_order "Todas" [ev1, ev3, ev5]).2.2 _ (by decide)

/-! ## C6: `getMonthsWithEvents` -/

theorem mem_setAdd (acc : List (Nat × Nat)) (q p : Nat × Nat) :
    p ∈ setAdd acc q ↔ (p ∈ acc ∨ p = q) := by
  rw [setAdd]
  by_cases hq : q ∈ acc
  · rw [if_pos hq]
    constructor
    · exact Or.inl
    · rintro (h | rfl)
      · exact h
      · exact hq
  · rw [if_neg hq]
    simp [List.mem_append]

theorem nodup_setAdd (acc : List (Nat × Nat)) (q : Nat × Nat)
    (h : acc.Nodup) : (setAdd acc q).Nodup := by
  rw [setAdd]
  by_cases hq : q ∈ acc
  · rwa [if_pos hq]
  · rw [if_neg hq]
    simp [List.nodup_append, h, hq]

theorem mem_foldl_setAdd (l : List (Nat × Nat)) :
    ∀ (acc : List (Nat × Nat)) (p : Nat × Nat),
      p ∈ l.foldl setAdd acc ↔ (p ∈ acc ∨ p ∈ l) := by
  induction l with
  | nil => intro acc p; simp
  | cons q rest ih =>
    intro acc p
    rw [List.foldl_cons, ih, mem_setAdd]
    constructor
    · rintro ((h | rfl) | h)
      · exact Or.inl h
      · exact Or.inr (List.mem_cons_self _ _)
      · exact Or.inr (List.mem_cons_of_mem q h)
    · rintro (h | h)
      · exact Or.inl (Or.inl h)
      · rcases List.mem_cons.mp h with rfl | hmem
        · exact Or.inl (Or.inr rfl)
        · exact Or.inr hmem

theorem nodup_foldl_setAdd (l : List (Nat × Nat)) :
    ∀ acc : List (Nat × Nat), acc.Nodup → (l.foldl setAdd acc).Nodup := by
  induction l with
  | nil => intro acc h; simpa using h
  | cons q rest ih =>
    intro acc h
    rw [List.foldl_cons]
    exact ih _ (nodup_setAdd acc q h)

/-- Claim C6: `getMonthsWithEvents` returns exactly the (year, month) pairs
carried by at least one event, without duplicates, in strictly ascending
order by year and then by month. -/
theorem C6_getMonthsWithEvents_spec (l : List Evento) :
    (∀ p, p ∈ getMonthsWithEvents l ↔ ∃ e ∈ l, eventoYM e = p)
    ∧ (getMonthsWithEvents l).Nodup
    ∧ (getMonthsWithEvents l).Pairwise
        (fun a b => a.1 < b.1 ∨ (a.1 = b.1 ∧ a.2 < b.2)) := by
  have hperm := List.perm_insertionSort pairLe ((l.map eventoYM).foldl setAdd [])
  have hnodup : (getMonthsWithEvents l).Nodup := by
    rw [getMonthsWithEvents]
    exact hperm.nodup_iff.mpr
      (nodup_foldl_setAdd (l.map eventoYM) [] List.nodup_nil)
  refine ⟨?_, hnodup, ?_⟩
  · intro p
    rw [getMonthsWithEvents, hperm.mem_iff, mem_foldl_setAdd]
    simp [List.mem_map]
  · have hsorted : (getMonthsWithEvents l).Pairwise pairLe := by
      rw [getMonthsWithEvents]
      exact List.sorted_insertionSort pairLe _
    have hne : (getMonthsWithEvents l).Pairwise (fun a b => a ≠ b) := hnodup
    refine (hsorted.and hne).imp ?_
    rintro ⟨a1, a2⟩ ⟨b1, b2⟩ ⟨hle, hne'⟩
    rcases hle with h | ⟨h1, h2⟩
    · exact Or.inl h
    · refine Or.inr ⟨h1, ?_⟩
      rcases Nat.lt_or_ge a2 b2 with h3 | h3
      · exact h3
      · exfalso
        exact hne' (by
          have h1' : a1 = b1 := h1
          have h2' : a2 = b2 := Nat.le_antisymm h2 h3
          simp [h1', h2'])

/-- Witness for C6: the pair (2026, 3) is reported for the demo store
because `ev1` dates to March 2026. -/
theorem C6_witness : (2026, 3) ∈ getMonthsWithEvents demoEventos :=
  ((C6_getMonthsWithEvents_spec demoEventos).1 (2026, 3)).mpr
    ⟨ev1, by decide, by decide⟩

/-! ## C7: failed loads change nothing but the error log -/

/-- A concrete page state for witnesses. -/
def demoState : AppState :=
  { allEventos := demoEventos
  , currentFilter := "Todas"
  , localInfo := "Rua José Pereira Liberato, 1178"
  , contactInfo := "(47) 99286-0936 (Arthur Ayad)"
  , logoSrc := "logo.png"
  , eventosContainer := renderEventsList "Todas" demoEventos
  , calendarsContainer := renderCalendars demoEventos
  , consoleErrors := [] }

/-- Claim C7: when the fetch/parse step fails, `loadData` returns normally
(the failure is consumed by the `catch`), leaves the event store, both
rendered views, the contact/logo fields and the filter exactly as they
were, and only appends the error to the console log. -/
theorem C7_loadData_failure_preserves_state (st : AppState) (err : String) :
    (loadData st (Except.error err)).allEventos = st.allEventos
    ∧ (loadData st (Except.error err)).eventosContainer = st.eventosContainer
    ∧ (loadData st (Except.error err)).calendarsContainer = st.calendarsContainer
    ∧ (loadData st (Except.error err)).localInfo = st.localInfo
    ∧ (loadData st (Except.error err)).contactInfo = st.contactInfo
    ∧ (loadData st (Except.error err)).logoSrc = st.logoSrc
    ∧ (loadData st (Except.error err)).currentFilter = st.currentFilter
    ∧ (loadData st (Except.error err)).consoleErrors
        = st.consoleErrors ++ ["Erro ao carregar dados: " ++ err] :=
  ⟨rfl, rfl, rfl, rfl, rfl, rfl, rfl, rfl⟩

/-- Witness for C7 at a concrete populated state and a simulated network
error. -/
theorem C7_witness :
    (loadData demoState (Except.error "falha de rede")).eventosContainer
      = demoState.eventosContainer :=
  (C7_loadData_failure_preserves_state demoState "falha de rede").2.1

/-! ## C8: unknown categories fall back -/

/-- Counterexample to C8 as stated: for the event `ev4` whose category
`"Desconhecida"` is absent from the styling tables, the fallback CSS class
is `"sematividade"` and the grid uses it, but the rendered list row carries
no category CSS class at all — `"sematividade"` appears nowhere among its
element classes — so the list view does not render the fallback CSS class. -/
theorem C8_counterexample :
    (List.lookup ev4.categoria categoryCssClasses = none)
    ∧ cssClassFor ev4.categoria = "sematividade"
    ∧ (renderRow ev4).dateBoxColor = "#999"
    ∧ "sematividade" ∉ (renderRow ev4).elementClasses := by
  decide

/-- Claim C8, amended: for every event whose category is absent from both
styling tables: the grid view decorates the event's day cell with the
fallback color `"#999"` and the fallback CSS class `"sematividade"`, and the
list view renders its date badge with the fallback color `"#999"` but
attaches no category-derived CSS class (its element classes are the fixed
structural ones, which do not include the fallback class). -/
theorem C8_unknown_category_fallback (e : Evento) (l1 l2 : List Evento)
    (y m d : Nat)
    (hcol : List.lookup e.categoria categoryColors = none)
    (hcss : List.lookup e.categoria categoryCssClasses = none)
    (hdata : e.data = dateStr y m d)
    (hfirst : ∀ x ∈ l1, x.data ≠ dateStr y m d) :
    mkDayCell (l1 ++ e :: l2) y m d = Cell.day d (some (mkDayMark e))
    ∧ (mkDayMark e).backgroundColor = "#999"
    ∧ (mkDayMark e).cssClasses = ["has-event", "sematividade"]
    ∧ (renderRow e).dateBoxColor = "#999"
    ∧ "sematividade" ∉ (renderRow e).elementClasses := by
  refine ⟨mkDayCell_first_match l1 l2 e y m d hfirst hdata, ?_, ?_, ?_, ?_⟩
  · rw [mkDayMark]
    simp [colorFor, hcol]
  · rw [mkDayMark]
    simp [cssClassFor, hcss]
  · rw [renderRow]
    simp [colorFor, hcol]
  · rw [renderRow]
    simp

/-- Witness for C8 (amended) at the concrete unknown-category event `ev4`
alone in the store. -/
theorem C8_witness :
    mkDayCell ([] ++ ev4 :: []) 2026 3 2 = Cell.day 2 (some (mkDayMark ev4)) :=
  (C8_unknown_category_fallback ev4 [] [] 2026 3 2
    (by decide) (by decide) (by decide) (by decide)).1

/-! ## C9: renderers are idempotent on their containers -/

/-- Claim C9: both renderers discard their container's previous contents and
rebuild from the store and filter alone, so a second call with unchanged
inputs produces output identical to the first, and the output never depends
on what was previously rendered. -/
theorem C9_render_idempotent (f : String) (l : List Evento)
    (listPrev : List MonthGroup) (calPrev : List CalendarBlock) :
    renderEventsListInto (renderEventsListInto listPrev f l) f l
        = renderEventsListInto listPrev f l
    ∧ renderCalendarsInto (renderCalendarsInto calPrev l) l
        = renderCalendarsInto calPrev l
    ∧ (∀ c1 c2 : List MonthGroup,
        renderEventsListInto c1 f l = renderEventsListInto c2 f l)
    ∧ (∀ c1 c2 : List CalendarBlock,
        renderCalendarsInto c1 l = renderCalendarsInto c2 l) :=
  ⟨rfl, rfl, fun _ _ => rfl, fun _ _ => rfl⟩

/-- Witness for C9 at the demo store: re-rendering the list view over its
own output reproduces it. -/
theorem C9_witness :
    renderEventsListInto
        (renderEventsListInto [] "Todas" demoEventos) "Todas" demoEventos
      = renderEventsListInto [] "Todas" demoEventos :=
  (C9_render_idempotent "Todas" demoEventos [] []).1

end Calendario
